import Mathlib

/-!
Verification of the task orchestration engine of
src/agents/orchestrator/main.py: the scheduler claim query, the per-agent-type
dispatch queues, the task lifecycle recorder, the health monitor and the task
submission entry point.  Timestamps are modelled as natural numbers counted in
minutes; JSON payloads as association lists of strings.
-/

namespace Orchestrator

/-- Agent types, the AgentType enum of the source. -/
inductive AgentType
  | trainer
  | evaluator
  | db_manager
  | support
deriving DecidableEq

/-- Task statuses, the TaskStatus enum of the source. -/
inductive TaskStatus
  | pending
  | running
  | completed
  | failed
deriving DecidableEq

/-- A row of the agent_tasks table (equivalently the AgentTask dataclass). -/
structure TaskRow where
  id : Nat
  agent_type : AgentType
  task_type : String
  input_data : List (String × String)
  priority : Int
  status : TaskStatus
  created_at : Nat
  started_at : Option Nat := none
  completed_at : Option Nat := none
  output_data : Option (List (String × String)) := none
  error_message : Option String := none
deriving DecidableEq

/-- The ORDER BY key of the scheduler claim query in _schedule_tasks:
priority DESC, created_at ASC.  claimLE a b holds when a may come no later
than b in the claimed order. -/
def claimLE (a b : TaskRow) : Prop :=
  b.priority < a.priority ∨ (a.priority = b.priority ∧ a.created_at ≤ b.created_at)

instance : DecidableRel claimLE := fun a b => by
  unfold claimLE
  exact inferInstance

instance : IsTotal TaskRow claimLE :=
  ⟨by intro a b; unfold claimLE; omega⟩

instance : IsTrans TaskRow claimLE :=
  ⟨by intro a b c; unfold claimLE; omega⟩

/-- A SQL UPDATE over agent_tasks: rows whose id satisfies p receive the column
changes f, all other rows are untouched. -/
def updateWhere (p : Nat → Bool) (f : TaskRow → TaskRow) (store : List TaskRow) :
    List TaskRow :=
  store.map (fun r => if p r.id then f r else r)

/-- Embeds _mark_task_completed: UPDATE agent_tasks SET status = completed,
completed_at = now, output_data = out WHERE id = tid.  The update is
unconditional on the current status of the row. -/
def mark_task_completed (store : List TaskRow) (tid : Nat) (now : Nat)
    (out : List (String × String)) : List TaskRow :=
  updateWhere (fun i => i == tid)
    (fun r => { r with status := TaskStatus.completed, completed_at := some now,
                       output_data := some out }) store

/-- Embeds _mark_task_failed: UPDATE agent_tasks SET status = failed,
completed_at = now, error_message = err WHERE id = tid.  The update is
unconditional on the current status of the row. -/
def mark_task_failed (store : List TaskRow) (tid : Nat) (now : Nat)
    (err : String) : List TaskRow :=
  updateWhere (fun i => i == tid)
    (fun r => { r with status := TaskStatus.failed, completed_at := some now,
                       error_message := some err }) store

/-- The scheduler claim query of _schedule_tasks: SELECT rows WHERE status =
pending ORDER BY priority DESC, created_at ASC LIMIT 50. -/
def fetch_pending (store : List TaskRow) : List TaskRow :=
  (List.insertionSort claimLE
    (store.filter (fun r => decide (r.status = TaskStatus.pending)))).take 50

/-- The enqueue part of the scheduler loop: each fetched task is appended, in
fetch order, to the queue of its agent type (await task_queues[type].put). -/
def enqueueAll (fetched : List TaskRow) (qs : AgentType → List TaskRow) :
    AgentType → List TaskRow :=
  fetched.foldl
    (fun q t => fun a => if a = t.agent_type then q a ++ [t] else q a) qs

/-- One scheduler cycle of _schedule_tasks: fetch the pending tasks, enqueue
each onto its agent-type queue, set each fetched row to running with
started_at = now; the commit at cycle end makes the updates durable.  Returns
the committed store together with the queues. -/
def schedulePass (store : List TaskRow) (now : Nat) :
    List TaskRow × (AgentType → List TaskRow) :=
  let fetched := fetch_pending store
  (updateWhere (fun i => (fetched.map (fun t => t.id)).contains i)
      (fun r => { r with status := TaskStatus.running, started_at := some now })
      store,
   enqueueAll fetched (fun _ => []))

/-- Outcome of one handler invocation, the capability contract of the Handler
Registry: ok output_data, or error carrying the message of a raised
exception. -/
abbrev HandlerFn := TaskRow → Except String (List (String × String))

/-- The dispatch of one task by _process_agent_queue: on handler success the
handler has marked the task completed; a raised exception is caught by the
except branch and the task is marked failed with str(e). -/
def dispatchOne (handler : HandlerFn) (now : Nat) (store : List TaskRow)
    (t : TaskRow) : List TaskRow :=
  match handler t with
  | Except.ok out => mark_task_completed store t.id now out
  | Except.error e => mark_task_failed store t.id now e

/-- The dispatcher loop of _process_agent_queue: the queue is consumed FIFO and
the loop continues after every task, failures included. -/
def runDispatcher (handler : HandlerFn) (queue : List TaskRow) (now : Nat)
    (store : List TaskRow) : List TaskRow :=
  queue.foldl (dispatchOne handler now) store

/-- The terminal column changes a dispatched task t writes to a row: completed
with output on success, failed with the error text on exception. -/
def termUpd (handler : HandlerFn) (now : Nat) (t : TaskRow) (r : TaskRow) :
    TaskRow :=
  match handler t with
  | Except.ok out => { r with status := TaskStatus.completed,
                              completed_at := some now, output_data := some out }
  | Except.error e => { r with status := TaskStatus.failed,
                               completed_at := some now, error_message := some e }

/-- The effect of a full dispatcher run on one row of the store. -/
def dispatchRow (handler : HandlerFn) (queue : List TaskRow) (now : Nat)
    (r : TaskRow) : TaskRow :=
  queue.foldl (fun r t => if r.id == t.id then termUpd handler now t r else r) r

/-- Lookup of the row of a task id (SELECT by primary key). -/
def rowLookup (store : List TaskRow) (tid : Nat) : Option TaskRow :=
  store.find? (fun r => r.id == tid)

/-- A message sent through the Kafka producer (topic, task_id, type field). -/
structure KafkaMessage where
  topic : String
  task_id : Nat
  msg_type : String
deriving DecidableEq

/-- Embeds _handle_trainer_task: for task_type start_rlhf_training or
evaluate_model a Kafka message is sent; for any other task_type no branch
runs.  In every case the final statement marks the task completed with
output status = submitted, so this handler never fails. -/
def handle_trainer_task (t : TaskRow) :
    List KafkaMessage × Except String (List (String × String)) :=
  let msgs :=
    if t.task_type = "start_rlhf_training" then
      [{ topic := "training_requests", task_id := t.id, msg_type := "rlhf_training" }]
    else if t.task_type = "evaluate_model" then
      [{ topic := "evaluation_requests", task_id := t.id, msg_type := "model_evaluation" }]
    else []
  (msgs, Except.ok [("status", "submitted")])

/-- Python dict .get with a default, over an association list. -/
def lookupStr (m : List (String × String)) (k : String) (d : String) : String :=
  match m.find? (fun p => p.1 == k) with
  | some p => p.2
  | none => d

/-- Occurrence of pat inside s (the Python in operator on strings). -/
def strContainsSub (s pat : String) : Bool :=
  (s.splitOn pat).length > 1

/-- Embeds _check_toxicity: any of the keywords occurs in content.lower(). -/
def check_toxicity (content : String) : Bool :=
  ["hate", "toxic", "offensive"].any (fun k => strContainsSub content.toLower k)

/-- Embeds _detect_hallucination: len(response) > len(context) * 2. -/
def detect_hallucination (response ctx : String) : Bool :=
  response.length > ctx.length * 2

/-- Embeds _handle_evaluator_task.  For an unknown task_type neither branch
assigns the local variable result, so evaluating mark_task_completed(task,
result) raises NameError with message: name result is not defined (Python
quotes the variable name; quotes are omitted here).  Confidence numbers are
carried as decimal strings. -/
def handle_evaluator_task (t : TaskRow) : Except String (List (String × String)) :=
  if t.task_type = "toxicity_check" then
    let content := lookupStr t.input_data "content" ""
    let is_toxic := check_toxicity content
    Except.ok
      [("is_toxic", if is_toxic then "true" else "false"),
       ("confidence", if is_toxic then "0.95" else "0.05"),
       ("content_id", lookupStr t.input_data "content_id" "")]
  else if t.task_type = "hallucination_detection" then
    let response := lookupStr t.input_data "response" ""
    let ctx := lookupStr t.input_data "context" ""
    let has_h := detect_hallucination response ctx
    Except.ok
      [("has_hallucination", if has_h then "true" else "false"),
       ("confidence", "0.8"),
       ("response_id", lookupStr t.input_data "response_id" "")]
  else
    Except.error "NameError: name result is not defined"

/-- Names bound at module scope of src/agents/orchestrator/main.py — the
module-level imports (asyncio, json, logging; datetime; Dict, List,
Optional, Any; dataclass; Enum; redis; psycopg2; KafkaProducer,
KafkaConsumer) plus the module-level definitions.  The name os is absent
from this list: os is imported only inside main(), in that function's local
scope. -/
def moduleGlobalNames : List String :=
  ["asyncio", "json", "logging", "datetime", "Dict", "List", "Optional", "Any",
   "dataclass", "Enum", "redis", "psycopg2", "KafkaProducer", "KafkaConsumer",
   "logger", "AgentType", "TaskStatus", "AgentTask", "AgentOrchestrator",
   "create_task", "main"]

/-- Embeds create_task(agent_type, task_type, input_data, priority = 5), the
task submission entry point.  Before any row is inserted the body evaluates
os.getenv for the connection parameters, which requires the global name os to
resolve; if it does not, Python raises NameError (message: name os is not
defined, quotes omitted) and nothing is inserted.  On success one row is
inserted with a fresh uuid, the given columns and created_at = now; status is
not in the INSERT column list, and the spec gives the submitted row status
pending, modelled here as the schema default.  The new task_id is returned. -/
def create_task (atype : AgentType) (ttype : String)
    (input_data : List (String × String)) (prio : Int) (store : List TaskRow)
    (freshId : Nat) (now : Nat) : Except String (List TaskRow × Nat) :=
  if moduleGlobalNames.contains "os" then
    Except.ok
      (store ++ [{ id := freshId, agent_type := atype, task_type := ttype,
                   input_data := input_data, priority := prio,
                   status := TaskStatus.pending, created_at := now }],
       freshId)
  else
    Except.error "NameError: name os is not defined"

/-- Embeds the stuck-task query of _monitor_agents: SELECT COUNT(*) WHERE
status = running AND started_at < NOW() - INTERVAL 1 hour.  Time is counted
in minutes, so the interval is 60; a NULL started_at satisfies no SQL
comparison. -/
def stuck_task_count (store : List TaskRow) (now : Nat) : Nat :=
  (store.filter (fun r =>
    decide (r.status = TaskStatus.running) &&
    (match r.started_at with
     | some s => decide (s + 60 < now)
     | none => false))).length

/-- The value attribute of each AgentType enum member. -/
def agentTypeName : AgentType → String
  | AgentType.trainer => "trainer"
  | AgentType.evaluator => "evaluator"
  | AgentType.db_manager => "db_manager"
  | AgentType.support => "support"

/-- The task_queues dictionary iteration order of _monitor_agents. -/
def allAgentTypes : List AgentType :=
  [AgentType.trainer, AgentType.evaluator, AgentType.db_manager, AgentType.support]

/-- Observable output of one monitor cycle: the Redis setex writes (key, TTL,
value), the agent types warned about for queue depth, and the stuck-task
warning count when positive. -/
structure MonitorOutput where
  metricWrites : List (String × Nat × Nat)
  overloadWarnings : List AgentType
  stuckWarning : Option Nat
deriving DecidableEq

/-- One cycle of _monitor_agents: for every agent type, setex the key
agent_queue_size: followed by the type name, with TTL 300 and the queue
depth as value; warn when the depth exceeds 100; then count stuck tasks and
warn when the count is positive. -/
def monitor_cycle (qsize : AgentType → Nat) (store : List TaskRow) (now : Nat) :
    MonitorOutput :=
  { metricWrites :=
      allAgentTypes.map (fun a => ("agent_queue_size:" ++ agentTypeName a, 300, qsize a)),
    overloadWarnings := allAgentTypes.filter (fun a => decide (qsize a > 100)),
    stuckWarning :=
      if stuck_task_count store now > 0 then some (stuck_task_count store now)
      else none }

/-- The store-visible events of one scheduler cycle, in program order:
for each fetched task the queue put, then the UPDATE to running; one COMMIT
after the loop. -/
inductive SchedEvent
  | enqueueEv (tid : Nat)
  | updateEv (tid : Nat)
  | commitEv
deriving DecidableEq

/-- The event trace of the loop body of _schedule_tasks over the fetched
tasks: put then update per task, in fetch order, then the single commit. -/
def scheduler_cycle_events (fetched : List TaskRow) : List SchedEvent :=
  (fetched.map (fun t => [SchedEvent.enqueueEv t.id, SchedEvent.updateEv t.id])).flatten
    ++ [SchedEvent.commitEv]

/-- Database state during a cycle: the committed rows, and the ids whose
UPDATE to running sits in the open transaction, not yet durable. -/
structure DbState where
  committed : List TaskRow
  uncommitted : List Nat
deriving DecidableEq

/-- Semantics of one scheduler event against the database: an enqueue touches
no store state, an UPDATE is buffered in the open transaction, the COMMIT
applies every buffered update to the committed rows. -/
def applyEvent (now : Nat) (s : DbState) : SchedEvent → DbState
  | SchedEvent.enqueueEv _ => s
  | SchedEvent.updateEv tid => { s with uncommitted := s.uncommitted ++ [tid] }
  | SchedEvent.commitEv =>
      { committed :=
          updateWhere (fun i => s.uncommitted.contains i)
            (fun r => { r with status := TaskStatus.running, started_at := some now })
            s.committed,
        uncommitted := [] }

/-- Run a list of scheduler events against a database state. -/
def runEvents (now : Nat) (s : DbState) (evs : List SchedEvent) : DbState :=
  evs.foldl (applyEvent now) s

/-- The fetch phase of one claim attempt: the SELECT reads the committed
store.  A second scheduler or a restarted process interleaved before the
first one's commit reads the same committed store. -/
def claimFetch (store : List TaskRow) : List TaskRow :=
  fetch_pending store

/-- The update-and-commit phase of one claim attempt: the fetched ids are set
to running and committed. -/
def claimCommit (store : List TaskRow) (ids : List Nat) (now : Nat) :
    List TaskRow :=
  updateWhere (fun i => ids.contains i)
    (fun r => { r with status := TaskStatus.running, started_at := some now })
    store

/-- A concrete pending trainer task used in the concrete theorems below. -/
def sampleRow : TaskRow :=
  { id := 1, agent_type := AgentType.trainer, task_type := "start_rlhf_training",
    input_data := [], priority := 5, status := TaskStatus.pending, created_at := 0 }

/-- A concrete task already in the terminal state completed. -/
def completedRow : TaskRow :=
  { id := 1, agent_type := AgentType.trainer, task_type := "start_rlhf_training",
    input_data := [], priority := 5, status := TaskStatus.completed,
    created_at := 0, started_at := some 1, completed_at := some 2,
    output_data := some [("status", "submitted")] }

/-- A concrete running trainer task whose task_type has no handler branch. -/
def unsupportedRow : TaskRow :=
  { id := 7, agent_type := AgentType.trainer, task_type := "compress_model",
    input_data := [], priority := 5, status := TaskStatus.running,
    created_at := 0, started_at := some 1 }

/-- The stuck-task count as the spec words it: the number of tasks in status
running whose started_at lies more than 60 minutes in the past.  Stated for
comparison with stuck_task_count, which embeds the SQL of the source. -/
def spec_stuck_count (store : List TaskRow) (now : Nat) : Nat :=
  (store.filter (fun r =>
    decide (r.status = TaskStatus.running) &&
    (match r.started_at with
     | some s => decide (60 < now - s)
     | none => false))).length

/-- Two claim attempts interleaved so that the second fetch runs before the
first commit: both fetches read the same committed store, then both commits
are applied.  Returns what attempt A claimed, what attempt B claimed, and the
final store. -/
def interleavedClaims (store : List TaskRow) (now : Nat) :
    List TaskRow × List TaskRow × List TaskRow :=
  let fa := claimFetch store
  let fb := claimFetch store
  let s1 := claimCommit store (fa.map (fun t => t.id)) now
  let s2 := claimCommit s1 (fb.map (fun t => t.id)) now
  (fa, fb, s2)

/-- A concrete running trainer task, mid-dispatch. -/
def runningRow : TaskRow :=
  { id := 1, agent_type := AgentType.trainer, task_type := "start_rlhf_training",
    input_data := [], priority := 5, status := TaskStatus.running,
    created_at := 0, started_at := some 1 }

/-- A task that at observation time 61 has been running for 61 minutes. -/
def row61 : TaskRow :=
  { id := 8, agent_type := AgentType.trainer, task_type := "start_rlhf_training",
    input_data := [], priority := 5, status := TaskStatus.running,
    created_at := 0, started_at := some 0 }

/-- A task that at observation time 61 has been running for 10 minutes. -/
def row10 : TaskRow :=
  { id := 9, agent_type := AgentType.trainer, task_type := "start_rlhf_training",
    input_data := [], priority := 5, status := TaskStatus.running,
    created_at := 0, started_at := some 51 }

/-- A running evaluator task whose task_type matches no handler branch. -/
def evalBad : TaskRow :=
  { id := 21, agent_type := AgentType.evaluator, task_type := "bogus_check",
    input_data := [], priority := 5, status := TaskStatus.running,
    created_at := 0, started_at := some 1 }

/-- A running evaluator task with a supported task_type. -/
def evalGood : TaskRow :=
  { id := 22, agent_type := AgentType.evaluator, task_type := "toxicity_check",
    input_data := [("content", "hello there")], priority := 5,
    status := TaskStatus.running, created_at := 0, started_at := some 1 }

/-- A second supported evaluator task, dispatched on a separate queue. -/
def evalOther : TaskRow :=
  { id := 23, agent_type := AgentType.evaluator, task_type := "toxicity_check",
    input_data := [("content", "plain words")], priority := 5,
    status := TaskStatus.running, created_at := 0, started_at := some 1 }

/-! Helper lemmas shared by the claim theorems. -/

theorem enqueueAll_eq (fetched : List TaskRow) :
    ∀ (qs : AgentType → List TaskRow) (a : AgentType),
      enqueueAll fetched qs a
        = qs a ++ fetched.filter (fun t => decide (t.agent_type = a)) := by
  induction fetched with
  | nil => intro qs a; simp [enqueueAll]
  | cons t ts ih =>
      intro qs a
      show enqueueAll ts _ a = _
      rw [ih]
      by_cases h : a = t.agent_type
      · simp [h, List.filter_cons]
      · have h2 : ¬ (t.agent_type = a) := fun hh => h hh.symm
        simp [h, h2, List.filter_cons]

theorem rowLookup_map (g : TaskRow → TaskRow) (hg : ∀ r, (g r).id = r.id)
    (store : List TaskRow) (tid : Nat) :
    rowLookup (store.map g) tid = (rowLookup store tid).map g := by
  induction store with
  | nil => rfl
  | cons r rs ih =>
      by_cases h : r.id = tid
      · have hgr : ((g r).id == tid) = true := by simp [hg r, h]
        have hr : (r.id == tid) = true := by simp [h]
        simp [rowLookup, List.find?_cons, hgr, hr]
      · have hgr : ((g r).id == tid) = false := by simp [hg r, h]
        have hr : (r.id == tid) = false := by simp [h]
        simp only [rowLookup, List.map_cons, List.find?_cons, hgr, hr]
        exact ih

theorem rowLookup_updateWhere (p : Nat → Bool) (f : TaskRow → TaskRow)
    (hf : ∀ r, (f r).id = r.id) (store : List TaskRow) (tid : Nat) :
    rowLookup (updateWhere p f store) tid
      = (rowLookup store tid).map (fun r => if p r.id then f r else r) := by
  unfold updateWhere
  apply rowLookup_map
  intro r
  by_cases h : p r.id
  · rw [if_pos h]
    exact hf r
  · rw [if_neg h]

theorem rowLookup_id {store : List TaskRow} {tid : Nat} {r : TaskRow}
    (h : rowLookup store tid = some r) : r.id = tid := by
  have := List.find?_some h
  simpa using this

theorem rowLookup_nodup_mem {store : List TaskRow} {t : TaskRow}
    (hnodup : (store.map (fun r => r.id)).Nodup) (ht : t ∈ store) :
    rowLookup store t.id = some t := by
  induction store with
  | nil => cases ht
  | cons r rs ih =>
      rcases List.mem_cons.mp ht with h | h
      · subst h
        simp [rowLookup, List.find?_cons]
      · have hne : r.id ≠ t.id := by
          intro he
          have : t.id ∈ rs.map (fun r => r.id) := List.mem_map_of_mem _ h
          rw [List.map_cons] at hnodup
          exact (List.nodup_cons.mp hnodup).1 (he ▸ this)
        have hr : (r.id == t.id) = false := by simp [hne]
        simp only [rowLookup, List.find?_cons, hr]
        exact ih (List.nodup_cons.mp (List.map_cons _ _ _ ▸ hnodup)).2 h

theorem termUpd_id (handler : HandlerFn) (now : Nat) (t r : TaskRow) :
    (termUpd handler now t r).id = r.id := by
  unfold termUpd
  cases handler t <;> rfl

theorem dispatchRow_id (handler : HandlerFn) (queue : List TaskRow) (now : Nat) :
    ∀ r : TaskRow, (dispatchRow handler queue now r).id = r.id := by
  induction queue with
  | nil => intro r; rfl
  | cons t ts ih =>
      intro r
      show (dispatchRow handler ts now _).id = r.id
      rw [ih]
      by_cases h : (r.id == t.id) = true
      · simp [h, termUpd_id]
      · simp [h]

theorem dispatchOne_eq_map (handler : HandlerFn) (now : Nat)
    (store : List TaskRow) (t : TaskRow) :
    dispatchOne handler now store t
      = store.map (fun r => if (r.id == t.id) = true then termUpd handler now t r else r) := by
  unfold dispatchOne termUpd
  cases h : handler t <;>
    simp [mark_task_completed, mark_task_failed, updateWhere, h]

theorem runDispatcher_eq_map (handler : HandlerFn) (queue : List TaskRow) (now : Nat) :
    ∀ store : List TaskRow,
      runDispatcher handler queue now store = store.map (dispatchRow handler queue now) := by
  induction queue with
  | nil =>
      intro store
      exact (List.map_id store).symm
  | cons t ts ih =>
      intro store
      show runDispatcher handler ts now (dispatchOne handler now store t) = _
      rw [ih, dispatchOne_eq_map, List.map_map]
      rfl

theorem dispatchRow_not_mem (handler : HandlerFn) (queue : List TaskRow) (now : Nat) :
    ∀ r : TaskRow, r.id ∉ queue.map (fun u => u.id) →
      dispatchRow handler queue now r = r := by
  induction queue with
  | nil => intro r _; rfl
  | cons t ts ih =>
      intro r hr
      rw [List.map_cons, List.mem_cons] at hr
      push_neg at hr
      simp only [dispatchRow, List.foldl_cons]
      rw [if_neg (by simp [hr.1])]
      exact ih r hr.2

theorem dispatchRow_mem (handler : HandlerFn) (now : Nat) :
    ∀ (queue : List TaskRow) (t r : TaskRow),
      (queue.map (fun u => u.id)).Nodup → t ∈ queue → r.id = t.id →
      dispatchRow handler queue now r = termUpd handler now t r := by
  intro queue
  induction queue with
  | nil => intro t r _ ht; cases ht
  | cons q qs ih =>
      intro t r hnodup ht hid
      rw [List.map_cons] at hnodup
      have hnd := List.nodup_cons.mp hnodup
      rcases List.mem_cons.mp ht with h | h
      · subst h
        simp only [dispatchRow, List.foldl_cons]
        rw [if_pos (by simp [hid])]
        apply dispatchRow_not_mem
        rw [termUpd_id, hid]
        exact hnd.1
      · have hne : r.id ≠ q.id := by
          rw [hid]
          intro he
          exact hnd.1 (he ▸ List.mem_map_of_mem _ h)
        simp only [dispatchRow, List.foldl_cons]
        rw [if_neg (by simp [hne])]
        exact ih t r hnd.2 h hid

theorem mem_fetch_pending {store : List TaskRow} {t : TaskRow}
    (ht : t ∈ fetch_pending store) :
    t ∈ store ∧ t.status = TaskStatus.pending := by
  unfold fetch_pending at ht
  have h1 : t ∈ List.insertionSort claimLE
      (store.filter (fun r => decide (r.status = TaskStatus.pending))) :=
    (List.take_sublist _ _).subset ht
  have h2 : t ∈ store.filter (fun r => decide (r.status = TaskStatus.pending)) :=
    (List.perm_insertionSort claimLE _).subset h1
  have h3 := List.mem_filter.mp h2
  exact ⟨h3.1, by simpa using h3.2⟩

theorem fetch_pending_sorted (store : List TaskRow) :
    List.Sorted claimLE (fetch_pending store) := by
  unfold fetch_pending
  exact List.Pairwise.sublist (List.take_sublist _ _)
    (List.sorted_insertionSort claimLE _)

theorem fetch_pending_nodup_ids {store : List TaskRow}
    (h : (store.map (fun r => r.id)).Nodup) :
    ((fetch_pending store).map (fun r => r.id)).Nodup := by
  unfold fetch_pending
  have h1 : ((store.filter (fun r => decide (r.status = TaskStatus.pending))).map
      (fun r => r.id)).Nodup :=
    List.Nodup.sublist (List.Sublist.map _ (List.filter_sublist _)) h
  have h2 : ((List.insertionSort claimLE
      (store.filter (fun r => decide (r.status = TaskStatus.pending)))).map
      (fun r => r.id)).Nodup :=
    (List.Perm.nodup_iff (List.Perm.map _ (List.perm_insertionSort claimLE _))).mpr h1
  exact List.Nodup.sublist (List.Sublist.map _ (List.take_sublist _ _)) h2

theorem runEvents_no_commit (now : Nat) :
    ∀ (evs : List SchedEvent) (s : DbState), SchedEvent.commitEv ∉ evs →
      (runEvents now s evs).committed = s.committed := by
  intro evs
  induction evs with
  | nil => intro s _; rfl
  | cons e es ih =>
      intro s hnc
      rw [List.mem_cons] at hnc
      push_neg at hnc
      show (runEvents now (applyEvent now s e) es).committed = s.committed
      rw [ih _ hnc.2]
      cases e with
      | enqueueEv tid => rfl
      | updateEv tid => rfl
      | commitEv => exact absurd rfl hnc.1

theorem commit_not_mem_body (fetched : List TaskRow) :
    SchedEvent.commitEv ∉
      (fetched.map
        (fun t => [SchedEvent.enqueueEv t.id, SchedEvent.updateEv t.id])).flatten := by
  intro h
  rcases List.mem_flatten.mp h with ⟨l, hl, hmem⟩
  rcases List.mem_map.mp hl with ⟨t, _, rfl⟩
  simp at hmem

theorem enqueue_before_update_sublist {fetched : List TaskRow} {t : TaskRow}
    (ht : t ∈ fetched) :
    List.Sublist [SchedEvent.enqueueEv t.id, SchedEvent.updateEv t.id]
      (scheduler_cycle_events fetched) := by
  unfold scheduler_cycle_events
  refine List.Sublist.trans ?_ (List.sublist_append_left _ [SchedEvent.commitEv])
  induction fetched with
  | nil => cases ht
  | cons u us ih =>
      rw [List.map_cons, List.flatten_cons]
      rcases List.mem_cons.mp ht with h | h
      · subst h
        exact List.sublist_append_left _ _
      · exact List.Sublist.trans (ih h) (List.sublist_append_right _ _)

/-! Claim theorems. -/

/-- C1: for every store and agent type, the queue built by one scheduler cycle
equals the claimed list restricted to that agent type in claimed order (strict
FIFO, no re-sorting downstream), that order is sorted by priority descending
with created_at ascending as tie-break, and it is a subsequence of the full
claimed order. -/
theorem claim_order_priority_fifo (store : List TaskRow) (now : Nat) (a : AgentType) :
    (schedulePass store now).2 a
        = (fetch_pending store).filter (fun t => decide (t.agent_type = a))
    ∧ List.Sorted claimLE ((schedulePass store now).2 a)
    ∧ List.Sublist ((schedulePass store now).2 a) (fetch_pending store) := by
  have hq : (schedulePass store now).2 a
      = (fetch_pending store).filter (fun t => decide (t.agent_type = a)) := by
    show enqueueAll (fetch_pending store) (fun _ => []) a = _
    rw [enqueueAll_eq]
    rfl
  refine ⟨hq, ?_, ?_⟩
  · rw [hq]
    exact List.Pairwise.sublist (List.filter_sublist _) (fetch_pending_sorted store)
  · rw [hq]
    exact List.filter_sublist _

/-- C7: every call of create_task raises NameError before touching the store,
because the body reads os.getenv while the name os is bound only inside
main(); no row is inserted and no task_id is returned.  This contradicts the
claimed submission behaviour, which the dead success branch of create_task
would implement. -/
theorem create_task_name_error (atype : AgentType) (ttype : String)
    (input_data : List (String × String)) (prio : Int) (store : List TaskRow)
    (freshId now : Nat) :
    create_task atype ttype input_data prio store freshId now
      = Except.error "NameError: name os is not defined" := by
  unfold create_task
  rw [if_neg (by decide)]

/-- C8: the monitor stuck count equals, for every store and observation time,
the number of tasks in status running whose started_at lies more than 60
minutes in the past; a task running for 61 minutes is counted and one running
for 10 minutes is not; the stuck warning is emitted exactly when the count is
positive. -/
theorem stuck_count_threshold (store : List TaskRow) (now : Nat)
    (qsize : AgentType → Nat) :
    stuck_task_count store now = spec_stuck_count store now
    ∧ ((monitor_cycle qsize store now).stuckWarning ≠ none
        ↔ 0 < stuck_task_count store now)
    ∧ stuck_task_count [row61] 61 = 1
    ∧ stuck_task_count [row10] 61 = 0 := by
  refine ⟨?_, ?_, by decide, by decide⟩
  · unfold stuck_task_count spec_stuck_count
    congr 1
    apply List.filter_congr
    intro r _
    cases hs : r.started_at with
    | none => rfl
    | some s =>
        congr 1
        rw [decide_eq_decide]
        omega
  · show (if 0 < stuck_task_count store now
        then some (stuck_task_count store now) else none) ≠ none
      ↔ 0 < stuck_task_count store now
    by_cases h : 0 < stuck_task_count store now
    · simp [h]
    · simp [h]

/-- C9: every monitor cycle writes, for every agent type, the key
agent_queue_size: followed by the type name with TTL 300 seconds and the
current queue depth as value, and emits an overload warning for that agent
type exactly when the depth exceeds 100. -/
theorem queue_metric_ttl_overload (qsize : AgentType → Nat)
    (store : List TaskRow) (now : Nat) (a : AgentType) :
    ("agent_queue_size:" ++ agentTypeName a, 300, qsize a)
        ∈ (monitor_cycle qsize store now).metricWrites
    ∧ (a ∈ (monitor_cycle qsize store now).overloadWarnings ↔ 100 < qsize a) := by
  constructor
  · show _ ∈ allAgentTypes.map (fun b => ("agent_queue_size:" ++ agentTypeName b, 300, qsize b))
    cases a <;> simp [allAgentTypes]
  · show a ∈ allAgentTypes.filter (fun b => decide (qsize b > 100)) ↔ _
    rw [List.mem_filter]
    constructor
    · intro h
      simpa using h.2
    · intro h
      exact ⟨by cases a <;> simp [allAgentTypes], by simpa using h⟩

/-- C2: a trainer task whose task_type matches no handler branch sends no
message, yet _handle_trainer_task still returns success with output status =
submitted, so dispatching it marks the task completed — not failed with an
unsupported-task-type error as the claim states. -/
theorem unsupported_trainer_marked_completed :
    (handle_trainer_task unsupportedRow).1 = []
    ∧ (handle_trainer_task unsupportedRow).2 = Except.ok [("status", "submitted")]
    ∧ rowLookup
        (runDispatcher (fun u => (handle_trainer_task u).2) [unsupportedRow] 2
          [unsupportedRow]) 7
      = some { unsupportedRow with
          status := TaskStatus.completed,
          completed_at := some 2,
          output_data := some [("status", "submitted")] } := by
  refine ⟨rfl, rfl, by decide⟩

/-- C3 counterexample: mark operations update unconditionally, so a second
recordTerminal call on a task already in the terminal state completed is not
a no-op: it rewrites the row to failed. -/
theorem second_terminal_call_not_noop :
    mark_task_failed [completedRow] 1 3 "boom" ≠ [completedRow]
    ∧ (rowLookup (mark_task_failed [completedRow] 1 3 "boom") 1).map
        (fun r => r.status) = some TaskStatus.failed
    ∧ completedRow.status = TaskStatus.completed := by
  refine ⟨by decide, by decide, by decide⟩

/-- C3 amended: a pending task claimed by a scheduler cycle and then
dispatched takes statuses pending, then running, then exactly one of
completed or failed; the terminal-marking operations themselves are however
unconditional updates, so a second recordTerminal call on an
already-terminal task overwrites it instead of being a no-op. -/
theorem status_trajectory (handler : HandlerFn) (store : List TaskRow)
    (now now2 : Nat) (t : TaskRow)
    (hnodup : (store.map (fun r => r.id)).Nodup)
    (hfetch : t ∈ fetch_pending store) :
    t.status = TaskStatus.pending
    ∧ (rowLookup (schedulePass store now).1 t.id).map (fun r => r.status)
        = some TaskStatus.running
    ∧ ((rowLookup (runDispatcher handler ((schedulePass store now).2 t.agent_type)
            now2 (schedulePass store now).1) t.id).map (fun r => r.status)
          = some TaskStatus.completed
       ∨ (rowLookup (runDispatcher handler ((schedulePass store now).2 t.agent_type)
            now2 (schedulePass store now).1) t.id).map (fun r => r.status)
          = some TaskStatus.failed) := by
  have hmem := mem_fetch_pending hfetch
  have hst : rowLookup store t.id = some t := rowLookup_nodup_mem hnodup hmem.1
  have hcontains :
      ((fetch_pending store).map (fun u => u.id)).contains t.id = true := by
    have : t.id ∈ (fetch_pending store).map (fun u => u.id) :=
      List.mem_map_of_mem _ hfetch
    exact List.elem_eq_true_of_mem this
  have hpass : rowLookup (schedulePass store now).1 t.id
      = some { t with status := TaskStatus.running, started_at := some now } := by
    show rowLookup (updateWhere _ _ store) t.id = _
    rw [rowLookup_updateWhere ((fetch_pending store).map (fun t => t.id)).contains
      (fun r => { r with status := TaskStatus.running, started_at := some now })
      (fun r => rfl) store t.id, hst]
    show some (if ((fetch_pending store).map (fun u => u.id)).contains t.id
        then { t with status := TaskStatus.running, started_at := some now }
        else t) = _
    rw [if_pos hcontains]
  have hqueue : (schedulePass store now).2 t.agent_type
      = (fetch_pending store).filter (fun u => decide (u.agent_type = t.agent_type)) := by
    show enqueueAll (fetch_pending store) (fun _ => []) t.agent_type = _
    rw [enqueueAll_eq]
    rfl
  have hqnodup : (((schedulePass store now).2 t.agent_type).map (fun u => u.id)).Nodup := by
    rw [hqueue]
    exact List.Nodup.sublist (List.Sublist.map _ (List.filter_sublist _))
      (fetch_pending_nodup_ids hnodup)
  have htq : t ∈ (schedulePass store now).2 t.agent_type := by
    rw [hqueue]
    exact List.mem_filter.mpr ⟨hfetch, by simp⟩
  refine ⟨hmem.2, by rw [hpass]; rfl, ?_⟩
  have hfin : rowLookup (runDispatcher handler ((schedulePass store now).2 t.agent_type)
      now2 (schedulePass store now).1) t.id
      = some (termUpd handler now2 t
          { t with status := TaskStatus.running, started_at := some now }) := by
    rw [runDispatcher_eq_map,
      rowLookup_map _ (dispatchRow_id handler _ now2) _ t.id, hpass]
    show some (dispatchRow handler ((schedulePass store now).2 t.agent_type) now2
        { t with status := TaskStatus.running, started_at := some now }) = _
    rw [dispatchRow_mem handler now2 ((schedulePass store now).2 t.agent_type) t
      { t with status := TaskStatus.running, started_at := some now } hqnodup htq rfl]
  rw [hfin]
  unfold termUpd
  cases handler t with
  | ok out => left; rfl
  | error e => right; rfl

/-- C3 witness: the amended trajectory instantiated on a one-task store with
the trainer handler. -/
theorem status_trajectory_witness :
    ([sampleRow].map (fun r => r.id)).Nodup
    ∧ sampleRow ∈ fetch_pending [sampleRow]
    ∧ (sampleRow.status = TaskStatus.pending
       ∧ (rowLookup (schedulePass [sampleRow] 1).1 sampleRow.id).map (fun r => r.status)
           = some TaskStatus.running
       ∧ ((rowLookup (runDispatcher (fun u => (handle_trainer_task u).2)
              ((schedulePass [sampleRow] 1).2 sampleRow.agent_type) 2
              (schedulePass [sampleRow] 1).1) sampleRow.id).map (fun r => r.status)
             = some TaskStatus.completed
          ∨ (rowLookup (runDispatcher (fun u => (handle_trainer_task u).2)
              ((schedulePass [sampleRow] 1).2 sampleRow.agent_type) 2
              (schedulePass [sampleRow] 1).1) sampleRow.id).map (fun r => r.status)
             = some TaskStatus.failed)) :=
  ⟨by decide, by decide,
   status_trajectory (fun u => (handle_trainer_task u).2) [sampleRow] 1 2 sampleRow
     (by decide) (by decide)⟩

/-- C10: in the event trace of one scheduler cycle, each fetched task is
enqueued before its row is updated to running, the single commit is the last
event, and an abort before the commit leaves the committed store — hence
every fetched task's status — unchanged. -/
theorem cycle_events_order_and_commit (fetched : List TaskRow) (now : Nat)
    (store : List TaskRow) (t : TaskRow) (pre : List SchedEvent)
    (ht : t ∈ fetched)
    (_hpre : List.IsPrefix pre (scheduler_cycle_events fetched))
    (hnc : SchedEvent.commitEv ∉ pre) :
    List.Sublist [SchedEvent.enqueueEv t.id, SchedEvent.updateEv t.id]
        (scheduler_cycle_events fetched)
    ∧ (scheduler_cycle_events fetched).count SchedEvent.commitEv = 1
    ∧ (scheduler_cycle_events fetched).getLast? = some SchedEvent.commitEv
    ∧ (runEvents now { committed := store, uncommitted := [] } pre).committed
        = store := by
  refine ⟨enqueue_before_update_sublist ht, ?_, ?_,
    runEvents_no_commit now pre _ hnc⟩
  · unfold scheduler_cycle_events
    rw [List.count_append, List.count_eq_zero.mpr (commit_not_mem_body fetched)]
    rfl
  · unfold scheduler_cycle_events
    exact List.getLast?_concat _

/-- C10 witness: the cycle-order properties instantiated on a one-task fetch
with the abort point placed right after the enqueue. -/
theorem cycle_events_order_and_commit_witness :
    sampleRow ∈ [sampleRow]
    ∧ List.IsPrefix [SchedEvent.enqueueEv 1] (scheduler_cycle_events [sampleRow])
    ∧ SchedEvent.commitEv ∉ [SchedEvent.enqueueEv 1]
    ∧ (List.Sublist [SchedEvent.enqueueEv sampleRow.id, SchedEvent.updateEv sampleRow.id]
          (scheduler_cycle_events [sampleRow])
       ∧ (scheduler_cycle_events [sampleRow]).count SchedEvent.commitEv = 1
       ∧ (scheduler_cycle_events [sampleRow]).getLast? = some SchedEvent.commitEv
       ∧ (runEvents 5 { committed := [sampleRow], uncommitted := [] }
            [SchedEvent.enqueueEv 1]).committed = [sampleRow]) :=
  ⟨by decide, by decide, by decide,
   cycle_events_order_and_commit [sampleRow] 5 [sampleRow] sampleRow
     [SchedEvent.enqueueEv 1] (by decide) (by decide) (by decide)⟩

/-- C4: when the handler raises for task t, the exception is caught at the
dispatcher boundary and t alone is recorded failed with the error text; the
loop continues, and every other task — v in the same queue, u in a different
queue — still receives exactly the terminal state its own handler outcome
determines. -/
theorem handler_exception_isolated (handler : HandlerFn)
    (queue queue2 store : List TaskRow) (now now2 : Nat) (t v u : TaskRow)
    (e : String)
    (hnodup : (queue.map (fun r => r.id)).Nodup)
    (ht : t ∈ queue) (herr : handler t = Except.error e)
    (hv : v ∈ queue)
    (hnodup2 : (queue2.map (fun r => r.id)).Nodup)
    (hu : u ∈ queue2) (hdisj : u.id ∉ queue.map (fun r => r.id)) :
    rowLookup (runDispatcher handler queue now store) t.id
      = (rowLookup store t.id).map (fun r => { r with
          status := TaskStatus.failed,
          completed_at := some now,
          error_message := some e })
    ∧ rowLookup (runDispatcher handler queue now store) v.id
      = (rowLookup store v.id).map (termUpd handler now v)
    ∧ rowLookup
        (runDispatcher handler queue2 now2 (runDispatcher handler queue now store)) u.id
      = (rowLookup store u.id).map (termUpd handler now2 u) := by
  have hrow : ∀ w, w ∈ queue →
      rowLookup (runDispatcher handler queue now store) w.id
        = (rowLookup store w.id).map (termUpd handler now w) := by
    intro w hw
    rw [runDispatcher_eq_map, rowLookup_map _ (dispatchRow_id handler queue now) store w.id]
    cases h0 : rowLookup store w.id with
    | none => rfl
    | some r0 =>
        have hid := rowLookup_id h0
        show some (dispatchRow handler queue now r0) = some (termUpd handler now w r0)
        rw [dispatchRow_mem handler now queue w r0 hnodup hw hid]
  refine ⟨?_, hrow v hv, ?_⟩
  · rw [hrow t ht]
    cases h0 : rowLookup store t.id with
    | none => rfl
    | some r0 =>
        show some (termUpd handler now t r0) = some _
        unfold termUpd
        rw [herr]
  · have huns : rowLookup (runDispatcher handler queue now store) u.id
        = rowLookup store u.id := by
      rw [runDispatcher_eq_map, rowLookup_map _ (dispatchRow_id handler queue now) store u.id]
      cases h0 : rowLookup store u.id with
      | none => rfl
      | some r0 =>
          have hid := rowLookup_id h0
          show some (dispatchRow handler queue now r0) = some r0
          rw [dispatchRow_not_mem handler queue now r0 (by rw [hid]; exact hdisj)]
    rw [runDispatcher_eq_map handler queue2,
      rowLookup_map _ (dispatchRow_id handler queue2 now2) _ u.id, huns]
    cases h0 : rowLookup store u.id with
    | none => rfl
    | some r0 =>
        have hid := rowLookup_id h0
        show some (dispatchRow handler queue2 now2 r0) = some (termUpd handler now2 u r0)
        rw [dispatchRow_mem handler now2 queue2 u r0 hnodup2 hu hid]

/-- C4 witness: the evaluator handler raising on evalBad, with evalGood in the
same queue and evalOther dispatched on a second queue, on a three-row store. -/
theorem handler_exception_isolated_witness :
    ([evalBad, evalGood].map (fun r => r.id)).Nodup
    ∧ evalBad ∈ [evalBad, evalGood]
    ∧ handle_evaluator_task evalBad
        = Except.error "NameError: name result is not defined"
    ∧ evalGood ∈ [evalBad, evalGood]
    ∧ ([evalOther].map (fun r => r.id)).Nodup
    ∧ evalOther ∈ [evalOther]
    ∧ evalOther.id ∉ [evalBad, evalGood].map (fun r => r.id)
    ∧ (rowLookup (runDispatcher handle_evaluator_task [evalBad, evalGood] 2
          [evalBad, evalGood, evalOther]) evalBad.id
        = (rowLookup [evalBad, evalGood, evalOther] evalBad.id).map (fun r => { r with
            status := TaskStatus.failed,
            completed_at := some 2,
            error_message := some "NameError: name result is not defined" })
       ∧ rowLookup (runDispatcher handle_evaluator_task [evalBad, evalGood] 2
            [evalBad, evalGood, evalOther]) evalGood.id
          = (rowLookup [evalBad, evalGood, evalOther] evalGood.id).map
              (termUpd handle_evaluator_task 2 evalGood)
       ∧ rowLookup (runDispatcher handle_evaluator_task [evalOther] 3
            (runDispatcher handle_evaluator_task [evalBad, evalGood] 2
              [evalBad, evalGood, evalOther])) evalOther.id
          = (rowLookup [evalBad, evalGood, evalOther] evalOther.id).map
              (termUpd handle_evaluator_task 3 evalOther)) :=
  ⟨by decide, by decide, rfl, by decide, by decide, by decide, by decide,
   handler_exception_isolated handle_evaluator_task [evalBad, evalGood] [evalOther]
     [evalBad, evalGood, evalOther] 2 3 evalBad evalGood evalOther
     "NameError: name result is not defined"
     (by decide) (by decide) rfl (by decide) (by decide) (by decide) (by decide)⟩

/-- C5 counterexample: the fetch of pending tasks and their update to running
are separate store operations committed only at cycle end; in the
interleaving where a second claim attempt fetches before the first attempt
commits, both attempts claim the same pending task. -/
theorem concurrent_claims_both_succeed :
    sampleRow ∈ (interleavedClaims [sampleRow] 4).1
    ∧ sampleRow ∈ (interleavedClaims [sampleRow] 4).2.1 := by
  refine ⟨by decide, by decide⟩

/-- C5 amended: within one scheduler, sequential passes claim each task at
most once — after a committed pass the task no longer matches the pending
filter — but the fetch and update are not one atomic operation, so claim
attempts interleaved between fetch and commit can both succeed (see the
counterexample). -/
theorem sequential_passes_claim_once (store : List TaskRow) (now : Nat)
    (t : TaskRow) (ht : t ∈ claimFetch store) :
    t.id ∉
      (claimFetch (claimCommit store ((claimFetch store).map (fun r => r.id)) now)).map
        (fun r => r.id) := by
  intro hmem
  rcases List.mem_map.mp hmem with ⟨u, hu, huid⟩
  rcases mem_fetch_pending (show u ∈ fetch_pending _ from hu) with ⟨humem, hupend⟩
  unfold claimCommit updateWhere at humem
  rcases List.mem_map.mp humem with ⟨r, _, hru⟩
  by_cases hp : ((claimFetch store).map (fun w => w.id)).contains r.id = true
  · rw [if_pos hp] at hru
    rw [← hru] at hupend
    simp at hupend
  · rw [if_neg hp] at hru
    apply hp
    subst hru
    rw [huid]
    exact List.elem_eq_true_of_mem (List.mem_map_of_mem _ ht)

/-- C5 witness: the sequential no-double-claim property on a one-task store. -/
theorem sequential_passes_claim_once_witness :
    sampleRow ∈ claimFetch [sampleRow]
    ∧ sampleRow.id ∉
        (claimFetch (claimCommit [sampleRow]
          ((claimFetch [sampleRow]).map (fun r => r.id)) 4)).map (fun r => r.id) :=
  ⟨by decide, sequential_passes_claim_once [sampleRow] 4 sampleRow (by decide)⟩

/-- C6 counterexample: applying mark_task_completed and then mark_task_failed
to the same task leaves output_data and error_message both set. -/
theorem double_terminal_sets_both_fields :
    (rowLookup (mark_task_failed
        (mark_task_completed [runningRow] 1 2 [("status", "submitted")]) 1 3 "boom") 1).map
      (fun r => (r.output_data, r.error_message))
    = some (some [("status", "submitted")], some "boom") := by
  decide

/-- C6 amended: output_data and error_message are populated only by the
terminal marking; in any dispatcher run in which each task is dispatched at
most once, every row ends with at most one of the two set; a second terminal
call of the other kind on the same task however sets both (see the
counterexample). -/
theorem terminal_fields_mutually_exclusive (handler : HandlerFn)
    (queue store : List TaskRow) (now : Nat) (r : TaskRow)
    (hnodup : (queue.map (fun u => u.id)).Nodup)
    (hinit : ∀ u ∈ store, u.output_data = none ∧ u.error_message = none)
    (hr : r ∈ runDispatcher handler queue now store) :
    r.output_data = none ∨ r.error_message = none := by
  rw [runDispatcher_eq_map] at hr
  rcases List.mem_map.mp hr with ⟨u, hu, rfl⟩
  rcases hinit u hu with ⟨ho, he⟩
  by_cases hmem : u.id ∈ queue.map (fun w => w.id)
  · rcases List.mem_map.mp hmem with ⟨w, hwq, hwid⟩
    rw [dispatchRow_mem handler now queue w u hnodup hwq hwid.symm]
    unfold termUpd
    cases hh : handler w with
    | ok out =>
        right
        exact he
    | error e2 =>
        left
        exact ho
  · rw [dispatchRow_not_mem handler queue now u hmem]
    left
    exact ho

/-- C6 witness: exclusivity of the terminal fields on a one-task dispatcher
run with the trainer handler. -/
theorem terminal_fields_mutually_exclusive_witness :
    ([runningRow].map (fun u => u.id)).Nodup
    ∧ runningRow.output_data = none
    ∧ runningRow.error_message = none
    ∧ { runningRow with
          status := TaskStatus.completed,
          completed_at := some 2,
          output_data := some [("status", "submitted")] }
        ∈ runDispatcher (fun u => (handle_trainer_task u).2) [runningRow] 2 [runningRow]
    ∧ ({ runningRow with
          status := TaskStatus.completed,
          completed_at := some 2,
          output_data := some [("status", "submitted")] }.output_data = none
       ∨ { runningRow with
            status := TaskStatus.completed,
            completed_at := some 2,
            output_data := some [("status", "submitted")] }.error_message = none) :=
  ⟨by decide, by decide, by decide, by decide,
   terminal_fields_mutually_exclusive (fun u => (handle_trainer_task u).2)
     [runningRow] [runningRow] 2
     { runningRow with
         status := TaskStatus.completed,
         completed_at := some 2,
         output_data := some [("status", "submitted")] }
     (by decide) (by decide) (by decide)⟩

end Orchestrator
